import Mathlib

/-!
Verification of the STM32H5 I3C timing utility
(`stm32cube/stm32h5xx/drivers/src/stm32h5xx_util_i3c.c`).

The two entry points `I3C_CtrlTimingComputation` and `I3C_TgtTimingComputation`
are shallowly embedded as Lean functions on `Nat`, with every 32-bit C
operation made explicit: additions, subtractions and multiplications of
`uint32_t` values are performed modulo `2^32`, and the cast of the 64-bit
period quotient down to `uint32_t` is a reduction modulo `2^32`.  Unsigned
division by zero (which the C abstract machine leaves undefined but the
target hardware's divider resolves to 0) is modelled by Lean's `x / 0 = 0`
convention.  The C functions report failure through an `ErrorStatus` and
populate the output structure only on success; this is modelled by an
`Option` result, `none` standing for `ERROR`.
-/

/-- Modulus of 32-bit unsigned arithmetic. -/
def U32M : Nat := 4294967296

/-- 32-bit unsigned addition (wraps modulo `2^32`). -/
def uadd (x y : Nat) : Nat := (x + y) % U32M

/-- 32-bit unsigned subtraction (wraps modulo `2^32`); arguments below `2^32`. -/
def usub (x y : Nat) : Nat := (x + U32M - y) % U32M

/-- 32-bit unsigned multiplication (wraps modulo `2^32`). -/
def umul (x y : Nat) : Nat := (x * y) % U32M

/-- `DIV_ROUND_CLOSEST(x, d) = ((x) + ((d) / 2U)) / (d)`, on `uint32_t`
operands: the inner addition wraps modulo `2^32`. -/
def DIV_ROUND_CLOSEST (x d : Nat) : Nat := uadd x (d / 2) / d

/-- `SEC210PSEC`: one second expressed in 10 ps units (`uint64_t`). -/
def SEC210PSEC : Nat := 100000000000

/-- `TI3CH_MIN`: open drain and push pull SCL high minimum, 32 ns. -/
def TI3CH_MIN : Nat := 3200

/-- `TI3CH_OD_MAX`: open drain SCL high maximum, 41 ns. -/
def TI3CH_OD_MAX : Nat := 4100

/-- `TI3CL_OD_MIN`: open drain SCL low minimum, 200 ns. -/
def TI3CL_OD_MIN : Nat := 20000

/-- `TFMPL_OD_MIN`: Fast Mode Plus open drain SCL low minimum, 500 ns. -/
def TFMPL_OD_MIN : Nat := 50000

/-- `TFML_OD_MIN`: Fast Mode open drain SCL low minimum, 1300 ns. -/
def TFML_OD_MIN : Nat := 130000

/-- `TFM_MIN`: Fast Mode minimum period for `ti3cclk`, 2.5 us. -/
def TFM_MIN : Nat := 250000

/-- `TSM_MIN`: Standard Mode minimum period for `ti3cclk`, 10 us. -/
def TSM_MIN : Nat := 1000000

/-- `TI3C_CAS_MIN`: minimum SCL time after START, 38.4 ns. -/
def TI3C_CAS_MIN : Nat := 3840

/-- `TCAPA`: capacitor effect value, around 350 ns. -/
def TCAPA : Nat := 35000

/-- Modelled from the spec: the bus-configuration enumeration (`I3C_BUS_TYPE`)
with values `{PureI3C, Mixed}`.  Its defining header
(`stm32h5xx_util_i3c.h`) is not part of the sources. -/
inductive I3C_BUS_TYPE where
  | I3C_PURE_I3C_BUS
  | I3C_MIXED_BUS
deriving DecidableEq, Repr

/-- Modelled from the spec: the fixed bit position of the 1-bit SDA hold
flag inside the `SDAHoldTime` register word.  The device header defining
`I3C_TIMINGR1_SDA_HD_Pos` is not part of the sources; the spec fixes only
that the flag is shifted to a fixed position, so a representative position
is used. -/
def I3C_TIMINGR1_SDA_HD_Pos : Nat := 20

/-- Output record `LL_I3C_CtrlBusConfTypeDef`: six `uint8_t` cycle counts
and the `uint32_t` SDA hold word. -/
structure LL_I3C_CtrlBusConfTypeDef where
  SCLPPLowDuration : Nat
  SCLI3CHighDuration : Nat
  SCLODLowDuration : Nat
  SCLI2CHighDuration : Nat
  BusFreeDuration : Nat
  BusIdleDuration : Nat
  SDAHoldTime : Nat
deriving DecidableEq, Repr

/-- Output record `LL_I3C_TgtBusConfTypeDef`: one `uint8_t` cycle count. -/
structure LL_I3C_TgtBusConfTypeDef where
  BusAvailableDuration : Nat
deriving DecidableEq, Repr

/-- The period computation
`(uint32_t)((SEC210PSEC + ((uint64_t)freq / 2)) / (uint64_t)freq)`
shared by both entry points (source lines 128, 139, 142 and 350): a 64-bit
round-half-up division truncated to `uint32_t`.  `freq = 0` yields 0,
matching the hardware divider. -/
def ti3cclk_of (freq : Nat) : Nat := ((SEC210PSEC + freq / 2) / freq) % U32M

/-- The raw values computed by the SCL-computation block of
`I3C_CtrlTimingComputation` (source lines 150-299), before the 8-bit range
gate and the casts into the output record. -/
structure I3C_CtrlSclValues where
  scllpp : Nat
  sclhi3c : Nat
  scllod : Nat
  sclhi2c : Nat
  free : Nat
  oneus : Nat
  sdahold : Nat
deriving DecidableEq, Repr

/-- Pure-bus SCL high/low computation (source lines 154-184): returns the
pair `(sclhi3c, scllpp)` before the frequency-accuracy correction. -/
def I3C_CtrlHighLowPure (dutyCycle ti3cclk ti3c_pp_min : Nat) : Nat × Nat :=
  let s0 := usub (DIV_ROUND_CLOSEST
    (DIV_ROUND_CLOSEST (umul ti3c_pp_min dutyCycle) ti3cclk) 100) 1
  if umul (uadd s0 1) ti3cclk < TI3CH_MIN then
    let s1 := usub (DIV_ROUND_CLOSEST TI3CH_MIN ti3cclk) 1
    let s2 := if umul (uadd s1 1) ti3cclk < TI3CH_MIN then uadd s1 1 else s1
    (s2, usub (usub (DIV_ROUND_CLOSEST ti3c_pp_min ti3cclk) (uadd s2 1)) 1)
  else
    let s1 := usub (DIV_ROUND_CLOSEST
      (DIV_ROUND_CLOSEST (umul ti3c_pp_min dutyCycle) ti3cclk) 100) 1
    let s2 := if umul (uadd s1 1) ti3cclk < TI3CH_MIN then uadd s1 1 else s1
    (s2, usub (DIV_ROUND_CLOSEST
      (DIV_ROUND_CLOSEST (umul ti3c_pp_min (usub 100 dutyCycle)) ti3cclk) 100) 1)

/-- Mixed-bus SCL high/low computation (source lines 186-206): returns the
pair `(sclhi3c, scllpp)` before the frequency-accuracy correction. -/
def I3C_CtrlHighLowMixed (ti3cclk ti3c_pp_min : Nat) : Nat × Nat :=
  let s0 := usub (DIV_ROUND_CLOSEST TI3CH_OD_MAX ti3cclk) 1
  let s1 :=
    if umul (uadd s0 1) ti3cclk < TI3CH_MIN then uadd s0 1
    else if umul (uadd s0 1) ti3cclk > TI3CH_OD_MAX then TI3CH_OD_MAX / ti3cclk
    else s0
  (s1, usub (DIV_ROUND_CLOSEST
    (usub ti3c_pp_min (umul (uadd s1 1) ti3cclk)) ti3cclk) 1)

/-- Frequency-accuracy correction of `scllpp` (source lines 208-221): the
decrement-on-overshoot and increment-on-undershoot passes. -/
def I3C_CtrlScllppCorrect (sclhi3c scllpp ti3cclk ti3c_pp_min : Nat) : Nat :=
  let ideal_scllpp := usub ti3c_pp_min (umul (uadd sclhi3c 1) ti3cclk)
  let scllpp1 :=
    if umul (uadd scllpp 1) ti3cclk ≥ uadd (uadd ideal_scllpp (ti3cclk / 2)) 1 then
      usub scllpp 1
    else scllpp
  if umul (uadd (uadd (uadd scllpp1 sclhi3c) 1) 1) ti3cclk <
      uadd (uadd ideal_scllpp (ti3cclk / 2)) 1 then
    uadd scllpp1 1
  else scllpp1

/-- SCL-computation block of `I3C_CtrlTimingComputation` (source lines
150-299), translated statement by statement; reached only when validation
passed and `ti3cclk` is nonzero. -/
def I3C_CtrlSclCompute (dutyCycle : Nat) (busType : I3C_BUS_TYPE)
    (ti3cclk ti3c_pp_min ti2c_od_min : Nat) : I3C_CtrlSclValues :=
  let hp : Nat × Nat :=
    match busType with
    | I3C_BUS_TYPE.I3C_PURE_I3C_BUS =>
      I3C_CtrlHighLowPure dutyCycle ti3cclk ti3c_pp_min
    | I3C_BUS_TYPE.I3C_MIXED_BUS =>
      I3C_CtrlHighLowMixed ti3cclk ti3c_pp_min
  let sclhi3c := hp.1
  let scllpp := I3C_CtrlScllppCorrect sclhi3c hp.2 ti3cclk ti3c_pp_min
  let ol : Nat × Nat :=
    match busType with
    | I3C_BUS_TYPE.I3C_MIXED_BUS =>
      let s0 := usub (DIV_ROUND_CLOSEST
        (DIV_ROUND_CLOSEST (umul ti2c_od_min (usub 100 dutyCycle)) ti3cclk) 100) 1
      let s1 :=
        if ti2c_od_min < TFM_MIN then
          if umul (uadd s0 1) ti3cclk < TFMPL_OD_MIN then
            usub (DIV_ROUND_CLOSEST TFMPL_OD_MIN ti3cclk) 1
          else s0
        else
          if umul (uadd s0 1) ti3cclk < TFML_OD_MIN then
            usub (DIV_ROUND_CLOSEST TFML_OD_MIN ti3cclk) 1
          else s0
      (s1, usub (DIV_ROUND_CLOSEST
        (usub ti2c_od_min (umul (uadd s1 1) ti3cclk)) ti3cclk) 1)
    | I3C_BUS_TYPE.I3C_PURE_I3C_BUS =>
      let s0 :=
        if ti3c_pp_min < TI3CL_OD_MIN then
          let a := usub (DIV_ROUND_CLOSEST TI3CL_OD_MIN ti3cclk) 1
          if umul (uadd a 1) ti3cclk < TI3CL_OD_MIN then uadd a 1 else a
        else scllpp
      let s1 :=
        if umul (uadd s0 1) ti3cclk < TCAPA then
          uadd (DIV_ROUND_CLOSEST TCAPA ti3cclk) 1
        else s0
      (s1, 0)
  let free :=
    match busType with
    | I3C_BUS_TYPE.I3C_PURE_I3C_BUS =>
      uadd (DIV_ROUND_CLOSEST (uadd TI3C_CAS_MIN TCAPA) (umul 2 ti3cclk)) 1
    | I3C_BUS_TYPE.I3C_MIXED_BUS =>
      DIV_ROUND_CLOSEST (uadd (umul (uadd ol.1 1) ti3cclk) TCAPA) (umul 2 ti3cclk)
  let sdahold := if ti3cclk > 600 then 0 else 1
  let oneus := usub (DIV_ROUND_CLOSEST 100000 ti3cclk) 2
  ⟨scllpp, sclhi3c, ol.1, ol.2, free, oneus, sdahold⟩

/-- Population of the output record on the success path (source lines
310-319): each cycle count is cast to `uint8_t`, the SDA hold flag is
shifted to its register position as a `uint32_t`. -/
def packCtrlConfig (v : I3C_CtrlSclValues) : LL_I3C_CtrlBusConfTypeDef :=
  { SCLPPLowDuration := v.scllpp % 256
    SCLI3CHighDuration := v.sclhi3c % 256
    SCLODLowDuration := v.scllod % 256
    SCLI2CHighDuration := v.sclhi2c % 256
    BusFreeDuration := v.free % 256
    BusIdleDuration := v.oneus % 256
    SDAHoldTime := Nat.shiftLeft v.sdahold I3C_TIMINGR1_SDA_HD_Pos % U32M }

/-- `I3C_CtrlTimingComputation` (source lines 61-324).  `none` models the
`ERROR` return status with the output structure untouched; `some cfg`
models `SUCCESS` with `cfg` holding the populated fields (each cycle count
cast to `uint8_t`, the SDA hold flag shifted to its register position). -/
def I3C_CtrlTimingComputation (clockSrcFreq i3cFreq i2cFreq dutyCycle : Nat)
    (busType : I3C_BUS_TYPE) : Option LL_I3C_CtrlBusConfTypeDef :=
  if ((clockSrcFreq = 0 ∨ i3cFreq = 0) ∧ busType = I3C_BUS_TYPE.I3C_PURE_I3C_BUS) ∨
     ((clockSrcFreq = 0 ∨ i3cFreq = 0 ∨ i2cFreq = 0) ∧
       busType = I3C_BUS_TYPE.I3C_MIXED_BUS) then
    none
  else if dutyCycle > 50 ∨ ti3cclk_of clockSrcFreq = 0 then none
  else if busType ≠ I3C_BUS_TYPE.I3C_PURE_I3C_BUS ∧
      ti3cclk_of i2cFreq > TSM_MIN then none
  else if (I3C_CtrlSclCompute dutyCycle busType (ti3cclk_of clockSrcFreq)
        (ti3cclk_of i3cFreq) (ti3cclk_of i2cFreq)).scllpp > 255 ∨
      (I3C_CtrlSclCompute dutyCycle busType (ti3cclk_of clockSrcFreq)
        (ti3cclk_of i3cFreq) (ti3cclk_of i2cFreq)).sclhi3c > 255 ∨
      (I3C_CtrlSclCompute dutyCycle busType (ti3cclk_of clockSrcFreq)
        (ti3cclk_of i3cFreq) (ti3cclk_of i2cFreq)).scllod > 255 ∨
      (I3C_CtrlSclCompute dutyCycle busType (ti3cclk_of clockSrcFreq)
        (ti3cclk_of i3cFreq) (ti3cclk_of i2cFreq)).sclhi2c > 255 ∨
      (I3C_CtrlSclCompute dutyCycle busType (ti3cclk_of clockSrcFreq)
        (ti3cclk_of i3cFreq) (ti3cclk_of i2cFreq)).free > 255 ∨
      (I3C_CtrlSclCompute dutyCycle busType (ti3cclk_of clockSrcFreq)
        (ti3cclk_of i3cFreq) (ti3cclk_of i2cFreq)).oneus > 255 then
    none
  else
    some (packCtrlConfig (I3C_CtrlSclCompute dutyCycle busType
      (ti3cclk_of clockSrcFreq) (ti3cclk_of i3cFreq) (ti3cclk_of i2cFreq)))

/-- `I3C_TgtTimingComputation` (source lines 335-369). -/
def I3C_TgtTimingComputation (clockSrcFreq : Nat) :
    Option LL_I3C_TgtBusConfTypeDef :=
  if clockSrcFreq = 0 then none
  else if ti3cclk_of clockSrcFreq = 0 then none
  else
    some ⟨usub (DIV_ROUND_CLOSEST 100000 (ti3cclk_of clockSrcFreq)) 2 % 256⟩

/-- For `24 ≤ freq < 2^32` the 64-bit period quotient fits in 32 bits, so
the `uint32_t` cast is the identity. -/
lemma ti3cclk_of_eq_div (f : Nat) (h24 : 24 ≤ f) (hlt : f < U32M) :
    ti3cclk_of f = (SEC210PSEC + f / 2) / f := by
  have hq : (SEC210PSEC + f / 2) / f < U32M := by
    rw [Nat.div_lt_iff_lt_mul (by omega)]
    unfold SEC210PSEC U32M at *
    omega
  unfold ti3cclk_of
  exact Nat.mod_eq_of_lt hq

/-- The derived period is at least 23 for every nonzero 32-bit frequency. -/
lemma ti3cclk_of_ge_23 (f : Nat) (h0 : 0 < f) (hlt : f < U32M) :
    23 ≤ ti3cclk_of f := by
  by_cases h24 : f < 24
  · interval_cases f <;> decide
  · rw [ti3cclk_of_eq_div f (by omega) hlt]
    rw [Nat.le_div_iff_mul_le (by omega)]
    unfold SEC210PSEC
    unfold U32M at hlt
    omega

/-- C1.  `ComputeControllerTiming(clockSrcFreq=48000000, i3cFreq=12500000,
i2cFreq=0, dutyCycle=50, busType=PureI3C)` succeeds and populates exactly
`SCLPPLowDuration=1, SCLI3CHighDuration=1, SCLODLowDuration=18,
SCLI2CHighDuration=0, BusFreeDuration=10, BusIdleDuration=46,
SDAHoldTime=0`. -/
theorem ctrl_timing_scenario1 :
    I3C_CtrlTimingComputation 48000000 12500000 0 50
      I3C_BUS_TYPE.I3C_PURE_I3C_BUS = some ⟨1, 1, 18, 0, 10, 46, 0⟩ := by
  decide

/-- C3 counterexample.  At `freqHz = 1` the 64-bit quotient
`(10^11 + 0) / 1 = 10^11` exceeds `2^32`, so the derived `uint32_t` period
is its truncation `1215752192`, not the round-half-up value `10^11` the
claim states. -/
theorem period_uint32_truncation_cex :
    ti3cclk_of 1 = 1215752192 ∧
    (100000000000 + 1 / 2) / 1 = 100000000000 ∧
    (1215752192 : Nat) ≠ 100000000000 := by
  decide

/-- C3 (amended).  For every 32-bit frequency `freqHz` with
`24 ≤ freqHz`, the derived clock period equals
`floor((10^11 + floor(freqHz/2)) / freqHz)`, the round-half-up integer
division; below 24 Hz the 64-bit quotient exceeds `2^32` and is truncated
by the `uint32_t` cast. -/
theorem period_round_half_up (f : Nat) (h24 : 24 ≤ f) (hlt : f < 4294967296) :
    ti3cclk_of f = (100000000000 + f / 2) / f :=
  ti3cclk_of_eq_div f h24 hlt

/-- Witness for `period_round_half_up` at `freqHz = 48000000`. -/
theorem period_round_half_up_witness :
    (24 ≤ 48000000 ∧ (48000000 : Nat) < 4294967296) ∧
    ti3cclk_of 48000000 = (100000000000 + 48000000 / 2) / 48000000 :=
  ⟨⟨by decide, by decide⟩, period_round_half_up 48000000 (by decide) (by decide)⟩

/-- C9.  For every nonzero 32-bit `clockSrcFreq` the derived 32-bit clock
period is at least 23 (hence nonzero), so the period-equals-zero error
branch is unreachable; in particular the target computation always
succeeds on a nonzero 32-bit clock frequency. -/
theorem period_nonzero_branch_unreachable (f : Nat) (h0 : 0 < f)
    (hlt : f < 4294967296) :
    23 ≤ ti3cclk_of f ∧ ti3cclk_of f ≠ 0 ∧
      I3C_TgtTimingComputation f ≠ none := by
  have h23 : 23 ≤ ti3cclk_of f := ti3cclk_of_ge_23 f h0 hlt
  refine ⟨h23, by omega, ?_⟩
  unfold I3C_TgtTimingComputation
  rw [if_neg (by omega), if_neg (by omega)]
  exact Option.some_ne_none _

/-- Witness for `period_nonzero_branch_unreachable` at
`clockSrcFreq = 48000000`. -/
theorem period_nonzero_branch_unreachable_witness :
    ((0 : Nat) < 48000000 ∧ (48000000 : Nat) < 4294967296) ∧
    (23 ≤ ti3cclk_of 48000000 ∧ ti3cclk_of 48000000 ≠ 0 ∧
      I3C_TgtTimingComputation 48000000 ≠ none) :=
  ⟨⟨by decide, by decide⟩,
    period_nonzero_branch_unreachable 48000000 (by decide) (by decide)⟩

/-- C6.  A duty cycle strictly greater than 50 makes the controller
computation return `ERROR`, whatever the other parameters are. -/
theorem ctrl_duty_gt_50_errors (f i3c i2c dc : Nat) (bt : I3C_BUS_TYPE)
    (h : 50 < dc) :
    I3C_CtrlTimingComputation f i3c i2c dc bt = none := by
  unfold I3C_CtrlTimingComputation
  split
  · rfl
  · rw [if_pos (Or.inl h)]

/-- Witness for `ctrl_duty_gt_50_errors` at duty cycle 60 (scenario 3 of
the spec). -/
theorem ctrl_duty_gt_50_errors_witness :
    (50 : Nat) < 60 ∧
    I3C_CtrlTimingComputation 48000000 12500000 0 60
      I3C_BUS_TYPE.I3C_PURE_I3C_BUS = none :=
  ⟨by decide, ctrl_duty_gt_50_errors 48000000 12500000 0 60
    I3C_BUS_TYPE.I3C_PURE_I3C_BUS (by decide)⟩

/-- C7.  A zero `clockSrcFreq` makes the controller computation return
`ERROR` for every remaining parameter combination, and makes the target
computation return `ERROR`. -/
theorem zero_clock_errors (i3c i2c dc : Nat) (bt : I3C_BUS_TYPE) :
    I3C_CtrlTimingComputation 0 i3c i2c dc bt = none ∧
      I3C_TgtTimingComputation 0 = none := by
  constructor
  · unfold I3C_CtrlTimingComputation
    cases bt
    · rw [if_pos (Or.inl ⟨Or.inl rfl, rfl⟩)]
    · rw [if_pos (Or.inr ⟨Or.inl rfl, rfl⟩)]
  · rfl

/-- C10.  At `clockSrcFreq = 1000` the derived period is `10^8` 10-ps
units, the one-microsecond count `round(100000 / period)` is 0 (less
than 2), the `uint32_t` subtraction of 2 wraps to `4294967294`, and the
target computation nevertheless succeeds, storing the low 8 bits `254`:
no 0-255 range gate exists on the target path. -/
theorem tgt_oneus_wraparound_1kHz :
    ti3cclk_of 1000 = 100000000 ∧
    DIV_ROUND_CLOSEST 100000 (ti3cclk_of 1000) = 0 ∧
    usub (DIV_ROUND_CLOSEST 100000 (ti3cclk_of 1000)) 2 = 4294967294 ∧
    I3C_TgtTimingComputation 1000 = some ⟨254⟩ := by
  decide

/-- C2 counterexample.  At the spec's own scenario-1 input the populated
`BusIdleDuration` is 46, while the claimed formula
`round(10000000 / ClockPeriod) - 2` (with `ClockPeriod = 2083` in 10 ps
units) gives 4799: the claim's constant is off by a factor 100 from the
code's `100000` (1 us in 10 ps units). -/
theorem busidle_formula_cex :
    I3C_CtrlTimingComputation 48000000 12500000 0 50
      I3C_BUS_TYPE.I3C_PURE_I3C_BUS = some ⟨1, 1, 18, 0, 10, 46, 0⟩ ∧
    ti3cclk_of 48000000 = 2083 ∧
    (10000000 + 2083 / 2) / 2083 - 2 = 4799 ∧
    (46 : Nat) ≠ 4799 := by
  decide

/-- C4 counterexample.  At `clockSrcFreq = 4000000, i3cFreq = 100,
dutyCycle = 35` (pure I3C) the computation succeeds, yet the realized
push-pull period `(230 + 255 + 2) * 25000 = 12175000` deviates from the
ideal period `10^9` by far more than one reference-clock period: the
`uint32_t` product `ti3c_pp_min * dutyCycle` overflowed. -/
theorem ctrl_accuracy_overflow_cex :
    I3C_CtrlTimingComputation 4000000 100 0 35
      I3C_BUS_TYPE.I3C_PURE_I3C_BUS = some ⟨230, 255, 230, 0, 2, 2, 0⟩ ∧
    ti3cclk_of 4000000 = 25000 ∧
    ti3cclk_of 100 = 1000000000 ∧
    ¬ ((230 + 255 + 2) * 25000 < 1000000000 + 25000 ∧
        1000000000 < (230 + 255 + 2) * 25000 + 25000) := by
  decide

/-- The one-microsecond count of the SCL block does not depend on the
bus-type branches. -/
lemma sclCompute_oneus (dc : Nat) (bt : I3C_BUS_TYPE) (t tpp tod : Nat) :
    (I3C_CtrlSclCompute dc bt t tpp tod).oneus =
      usub (DIV_ROUND_CLOSEST 100000 t) 2 := rfl

/-- The SDA hold flag of the SCL block does not depend on the bus-type
branches. -/
lemma sclCompute_sdahold (dc : Nat) (bt : I3C_BUS_TYPE) (t tpp tod : Nat) :
    (I3C_CtrlSclCompute dc bt t tpp tod).sdahold = if 600 < t then 0 else 1 := rfl

lemma packCtrlConfig_SCLPPLowDuration (v : I3C_CtrlSclValues) :
    (packCtrlConfig v).SCLPPLowDuration = v.scllpp % 256 := rfl

lemma packCtrlConfig_SCLI3CHighDuration (v : I3C_CtrlSclValues) :
    (packCtrlConfig v).SCLI3CHighDuration = v.sclhi3c % 256 := rfl

lemma packCtrlConfig_SCLODLowDuration (v : I3C_CtrlSclValues) :
    (packCtrlConfig v).SCLODLowDuration = v.scllod % 256 := rfl

lemma packCtrlConfig_SCLI2CHighDuration (v : I3C_CtrlSclValues) :
    (packCtrlConfig v).SCLI2CHighDuration = v.sclhi2c % 256 := rfl

lemma packCtrlConfig_BusFreeDuration (v : I3C_CtrlSclValues) :
    (packCtrlConfig v).BusFreeDuration = v.free % 256 := rfl

lemma packCtrlConfig_BusIdleDuration (v : I3C_CtrlSclValues) :
    (packCtrlConfig v).BusIdleDuration = v.oneus % 256 := rfl

lemma packCtrlConfig_SDAHoldTime (v : I3C_CtrlSclValues) :
    (packCtrlConfig v).SDAHoldTime =
      Nat.shiftLeft v.sdahold I3C_TIMINGR1_SDA_HD_Pos % U32M := rfl

lemma ti3cclk_of_lt (f : Nat) : ti3cclk_of f < U32M := by
  unfold ti3cclk_of
  exact Nat.mod_lt _ (by decide)

/-- Everything a successful controller run implies: the duty cycle and
period guards passed, the raw SCL values all fit 8 bits, and `cfg` is
their packing. -/
lemma ctrl_some_elim {f i3c i2c dc : Nat} {bt : I3C_BUS_TYPE}
    {cfg : LL_I3C_CtrlBusConfTypeDef}
    (h : I3C_CtrlTimingComputation f i3c i2c dc bt = some cfg) :
    dc ≤ 50 ∧ ti3cclk_of f ≠ 0 ∧
    (I3C_CtrlSclCompute dc bt (ti3cclk_of f) (ti3cclk_of i3c)
      (ti3cclk_of i2c)).scllpp ≤ 255 ∧
    (I3C_CtrlSclCompute dc bt (ti3cclk_of f) (ti3cclk_of i3c)
      (ti3cclk_of i2c)).sclhi3c ≤ 255 ∧
    (I3C_CtrlSclCompute dc bt (ti3cclk_of f) (ti3cclk_of i3c)
      (ti3cclk_of i2c)).scllod ≤ 255 ∧
    (I3C_CtrlSclCompute dc bt (ti3cclk_of f) (ti3cclk_of i3c)
      (ti3cclk_of i2c)).sclhi2c ≤ 255 ∧
    (I3C_CtrlSclCompute dc bt (ti3cclk_of f) (ti3cclk_of i3c)
      (ti3cclk_of i2c)).free ≤ 255 ∧
    (I3C_CtrlSclCompute dc bt (ti3cclk_of f) (ti3cclk_of i3c)
      (ti3cclk_of i2c)).oneus ≤ 255 ∧
    cfg = packCtrlConfig (I3C_CtrlSclCompute dc bt (ti3cclk_of f)
      (ti3cclk_of i3c) (ti3cclk_of i2c)) := by
  unfold I3C_CtrlTimingComputation at h
  split at h
  · exact Option.noConfusion h
  split at h
  · exact Option.noConfusion h
  split at h
  · exact Option.noConfusion h
  split at h
  · exact Option.noConfusion h
  rename_i h1 h2 h3 h4
  injection h with h
  exact ⟨by omega, by omega, by omega, by omega, by omega, by omega, by omega,
    by omega, h.symm⟩

/-- C2 (amended).  On every successful controller run, `BusIdleDuration`
equals `round(100000 / ClockPeriod) - 2` with round-half-up division,
`ClockPeriod` being the derived reference-clock period in 10 ps units
(100000 such units make the one microsecond of the spec; the claim's
constant `10000000` was off by a factor of 100). -/
theorem ctrl_busidle_eq_round (f i3c i2c dc : Nat) (bt : I3C_BUS_TYPE)
    (cfg : LL_I3C_CtrlBusConfTypeDef)
    (h : I3C_CtrlTimingComputation f i3c i2c dc bt = some cfg) :
    cfg.BusIdleDuration =
      (100000 + ti3cclk_of f / 2) / ti3cclk_of f - 2 := by
  obtain ⟨-, ht, -, -, -, -, -, honeus, hcfg⟩ := ctrl_some_elim h
  subst hcfg
  rw [packCtrlConfig_BusIdleDuration]
  rw [sclCompute_oneus] at honeus ⊢
  have htlt : ti3cclk_of f < U32M := ti3cclk_of_lt f
  have hdrc : DIV_ROUND_CLOSEST 100000 (ti3cclk_of f) =
      (100000 + ti3cclk_of f / 2) / ti3cclk_of f := by
    unfold DIV_ROUND_CLOSEST uadd
    unfold U32M at htlt ⊢
    rw [Nat.mod_eq_of_lt (by omega)]
  rw [hdrc] at honeus ⊢
  have hqle : (100000 + ti3cclk_of f / 2) / ti3cclk_of f ≤
      100000 + ti3cclk_of f / 2 := Nat.div_le_self _ _
  generalize (100000 + ti3cclk_of f / 2) / ti3cclk_of f = q at honeus hqle ⊢
  unfold usub U32M at honeus ⊢
  unfold U32M at htlt
  omega

/-- Witness for `ctrl_busidle_eq_round` at the spec's scenario-1 input. -/
theorem ctrl_busidle_eq_round_witness :
    I3C_CtrlTimingComputation 48000000 12500000 0 50
      I3C_BUS_TYPE.I3C_PURE_I3C_BUS = some ⟨1, 1, 18, 0, 10, 46, 0⟩ ∧
    (LL_I3C_CtrlBusConfTypeDef.mk 1 1 18 0 10 46 0).BusIdleDuration =
      (100000 + ti3cclk_of 48000000 / 2) / ti3cclk_of 48000000 - 2 :=
  ⟨by decide,
    ctrl_busidle_eq_round 48000000 12500000 0 50
      I3C_BUS_TYPE.I3C_PURE_I3C_BUS ⟨1, 1, 18, 0, 10, 46, 0⟩ (by decide)⟩

/-- C8.  On every successful controller run the SDA hold flag is 0 exactly
when the derived reference-clock period exceeds 600 (10 ps units, i.e.
6 ns) and 1 otherwise, and `SDAHoldTime` is that flag shifted to the fixed
SDA_HD bit position. -/
theorem ctrl_sda_hold_policy (f i3c i2c dc : Nat) (bt : I3C_BUS_TYPE)
    (cfg : LL_I3C_CtrlBusConfTypeDef)
    (h : I3C_CtrlTimingComputation f i3c i2c dc bt = some cfg) :
    cfg.SDAHoldTime =
      Nat.shiftLeft (if 600 < ti3cclk_of f then 0 else 1)
        I3C_TIMINGR1_SDA_HD_Pos := by
  obtain ⟨-, -, -, -, -, -, -, -, hcfg⟩ := ctrl_some_elim h
  subst hcfg
  rw [packCtrlConfig_SDAHoldTime, sclCompute_sdahold]
  by_cases hc : 600 < ti3cclk_of f
  · rw [if_pos hc]
    decide
  · rw [if_neg hc]
    decide

/-- Witness for `ctrl_sda_hold_policy` at the spec's scenario-1 input. -/
theorem ctrl_sda_hold_policy_witness :
    I3C_CtrlTimingComputation 48000000 12500000 0 50
      I3C_BUS_TYPE.I3C_PURE_I3C_BUS = some ⟨1, 1, 18, 0, 10, 46, 0⟩ ∧
    (LL_I3C_CtrlBusConfTypeDef.mk 1 1 18 0 10 46 0).SDAHoldTime =
      Nat.shiftLeft (if 600 < ti3cclk_of 48000000 then 0 else 1)
        I3C_TIMINGR1_SDA_HD_Pos :=
  ⟨by decide,
    ctrl_sda_hold_policy 48000000 12500000 0 50
      I3C_BUS_TYPE.I3C_PURE_I3C_BUS ⟨1, 1, 18, 0, 10, 46, 0⟩ (by decide)⟩

/-- C5.  On success every output field lies in `[0, 255]`; and whenever
the input passes validation but any of the six derived cycle counts
exceeds 255, the computation returns `ERROR` and no output record exists. -/
theorem ctrl_range_gate (f i3c i2c dc : Nat) (bt : I3C_BUS_TYPE) :
    (∀ cfg, I3C_CtrlTimingComputation f i3c i2c dc bt = some cfg →
      cfg.SCLPPLowDuration ≤ 255 ∧ cfg.SCLI3CHighDuration ≤ 255 ∧
      cfg.SCLODLowDuration ≤ 255 ∧ cfg.SCLI2CHighDuration ≤ 255 ∧
      cfg.BusFreeDuration ≤ 255 ∧ cfg.BusIdleDuration ≤ 255) ∧
    (¬(((f = 0 ∨ i3c = 0) ∧ bt = I3C_BUS_TYPE.I3C_PURE_I3C_BUS) ∨
        ((f = 0 ∨ i3c = 0 ∨ i2c = 0) ∧ bt = I3C_BUS_TYPE.I3C_MIXED_BUS)) →
      dc ≤ 50 → ti3cclk_of f ≠ 0 →
      ¬(bt ≠ I3C_BUS_TYPE.I3C_PURE_I3C_BUS ∧ ti3cclk_of i2c > TSM_MIN) →
      ((I3C_CtrlSclCompute dc bt (ti3cclk_of f) (ti3cclk_of i3c)
          (ti3cclk_of i2c)).scllpp > 255 ∨
        (I3C_CtrlSclCompute dc bt (ti3cclk_of f) (ti3cclk_of i3c)
          (ti3cclk_of i2c)).sclhi3c > 255 ∨
        (I3C_CtrlSclCompute dc bt (ti3cclk_of f) (ti3cclk_of i3c)
          (ti3cclk_of i2c)).scllod > 255 ∨
        (I3C_CtrlSclCompute dc bt (ti3cclk_of f) (ti3cclk_of i3c)
          (ti3cclk_of i2c)).sclhi2c > 255 ∨
        (I3C_CtrlSclCompute dc bt (ti3cclk_of f) (ti3cclk_of i3c)
          (ti3cclk_of i2c)).free > 255 ∨
        (I3C_CtrlSclCompute dc bt (ti3cclk_of f) (ti3cclk_of i3c)
          (ti3cclk_of i2c)).oneus > 255) →
      I3C_CtrlTimingComputation f i3c i2c dc bt = none) := by
  constructor
  · intro cfg h
    obtain ⟨-, -, -, -, -, -, -, -, hcfg⟩ := ctrl_some_elim h
    subst hcfg
    rw [packCtrlConfig_SCLPPLowDuration, packCtrlConfig_SCLI3CHighDuration,
      packCtrlConfig_SCLODLowDuration, packCtrlConfig_SCLI2CHighDuration,
      packCtrlConfig_BusFreeDuration, packCtrlConfig_BusIdleDuration]
    exact ⟨by omega, by omega, by omega, by omega, by omega, by omega⟩
  · intro h1 h2 h3 h4 hbig
    unfold I3C_CtrlTimingComputation
    rw [if_neg h1, if_neg (by omega), if_neg h4, if_pos hbig]

/-- Witness for `ctrl_range_gate`: at `clockSrcFreq = 1000` (spec
scenario 6) validation passes but the bus-idle count wraps far above 255,
so the call errors; and at the scenario-1 input the populated fields are
all within `[0, 255]`. -/
theorem ctrl_range_gate_witness :
    I3C_CtrlTimingComputation 1000 12500000 0 50
      I3C_BUS_TYPE.I3C_PURE_I3C_BUS = none ∧
    ((LL_I3C_CtrlBusConfTypeDef.mk 1 1 18 0 10 46 0).SCLPPLowDuration ≤ 255 ∧
      (LL_I3C_CtrlBusConfTypeDef.mk 1 1 18 0 10 46 0).SCLI3CHighDuration ≤ 255 ∧
      (LL_I3C_CtrlBusConfTypeDef.mk 1 1 18 0 10 46 0).SCLODLowDuration ≤ 255 ∧
      (LL_I3C_CtrlBusConfTypeDef.mk 1 1 18 0 10 46 0).SCLI2CHighDuration ≤ 255 ∧
      (LL_I3C_CtrlBusConfTypeDef.mk 1 1 18 0 10 46 0).BusFreeDuration ≤ 255 ∧
      (LL_I3C_CtrlBusConfTypeDef.mk 1 1 18 0 10 46 0).BusIdleDuration ≤ 255) :=
  ⟨(ctrl_range_gate 1000 12500000 0 50 I3C_BUS_TYPE.I3C_PURE_I3C_BUS).2
      (by decide) (by decide) (by decide) (by decide) (by decide),
    (ctrl_range_gate 48000000 12500000 0 50 I3C_BUS_TYPE.I3C_PURE_I3C_BUS).1
      ⟨1, 1, 18, 0, 10, 46, 0⟩ (by decide)⟩

lemma uadd_eq (x y : Nat) (h : x + y < 4294967296) : uadd x y = x + y := by
  unfold uadd U32M
  omega

lemma usub_sub (x y : Nat) (hy : y ≤ x) (hx : x < 4294967296) :
    usub x y = x - y := by
  unfold usub U32M
  omega

lemma usub_wrap (x y : Nat) (hx : x < y) (hxM : x < 4294967296)
    (hyM : y ≤ 4294967296) : usub x y = x + 4294967296 - y := by
  unfold usub U32M
  omega

lemma umul_mul (x y : Nat) (h : x * y < 4294967296) : umul x y = x * y := by
  unfold umul U32M
  exact Nat.mod_eq_of_lt h

lemma lt_div_mul_add (n t : Nat) (ht : 0 < t) : n < n / t * t + t := by
  have h := (Nat.div_lt_iff_lt_mul ht).mp (Nat.lt_succ_self (n / t))
  rw [Nat.succ_mul] at h
  exact h

/-- Behaviour of the correction pass on an in-range low count: given that
the pre-correction realized period `(L0+h+2)*t` is within the double
rounding error of the ideal period `T` (the 100-scaled bounds), the
corrected low count realizes `T` to strictly within one clock period. -/
lemma scllpp_correct_plain (h L0 t T : Nat)
    (ht : 0 < t) (htle : t ≤ 66667)
    (hTM : 100 * T < 4294967296)
    (hh : h ≤ 255)
    (hP2 : (h + 1) * t ≤ T + t / 2)
    (hS_up : 100 * ((L0 + h + 2) * t) ≤ 100 * T + 2 * (t / 2) + 100 * t)
    (hS_lo : 100 * T + 2 * (t / 2) + 2 ≤ 100 * ((L0 + h + 2) * t) + 100 * t)
    (hfin : I3C_CtrlScllppCorrect h L0 t T ≤ 255) :
    (I3C_CtrlScllppCorrect h L0 t T + h + 2) * t < T + t ∧
    T < (I3C_CtrlScllppCorrect h L0 t T + h + 2) * t + t := by
  have htP2 : t ≤ (h + 1) * t := Nat.le_mul_of_pos_left t (by omega)
  have hSM : (L0 + h + 2) * t < 4294967296 := by omega
  have hexp1 : (L0 + 1) * t + (h + 1) * t = (L0 + h + 2) * t := by ring
  have hexp2 : (L0 + h + 1) * t + t = (L0 + h + 2) * t := by ring
  have hexp3 : (L0 + 1 + h + 2) * t = (L0 + h + 2) * t + t := by ring
  have hL0M : L0 + h + 2 ≤ (L0 + h + 2) * t := Nat.le_mul_of_pos_right _ ht
  have hP2S : (h + 1) * t ≤ (L0 + h + 2) * t := Nat.mul_le_mul_right t (by omega)
  have hP0S : (L0 + 1) * t ≤ (L0 + h + 2) * t := Nat.mul_le_mul_right t (by omega)
  have hS1S : (L0 + h + 1) * t ≤ (L0 + h + 2) * t := Nat.mul_le_mul_right t (by omega)
  have e_h1 : uadd h 1 = h + 1 := uadd_eq _ _ (by omega)
  have e_P2 : umul (h + 1) t = (h + 1) * t := umul_mul _ _ (by omega)
  have hRHS : uadd (uadd (usub T ((h + 1) * t)) (t / 2)) 1 =
      T + t / 2 + 1 - (h + 1) * t := by
    by_cases hc : (h + 1) * t ≤ T
    · rw [usub_sub _ _ hc (by omega)]
      rw [uadd_eq (T - (h + 1) * t) (t / 2) (by omega)]
      rw [uadd_eq (T - (h + 1) * t + t / 2) 1 (by omega)]
      omega
    · push_neg at hc
      rw [usub_wrap _ _ hc (by omega) (by omega)]
      unfold uadd U32M
      omega
  have e_L01 : uadd L0 1 = L0 + 1 := uadd_eq _ _ (by omega)
  have e_P0 : umul (L0 + 1) t = (L0 + 1) * t := umul_mul _ _ (by omega)
  simp only [I3C_CtrlScllppCorrect] at hfin ⊢
  rw [e_h1, e_P2, hRHS, e_L01, e_P0] at hfin ⊢
  by_cases hc1 : (L0 + 1) * t ≥ T + t / 2 + 1 - (h + 1) * t
  · rw [if_pos hc1] at hfin ⊢
    by_cases hL00 : L0 = 0
    · subst hL00
      have e0 : usub 0 1 = 4294967295 := by decide
      rw [e0] at hfin ⊢
      have echain : uadd (uadd (uadd 4294967295 h) 1) 1 = h + 1 := by
        unfold uadd U32M
        omega
      rw [echain, e_P2] at hfin ⊢
      have hc1s : t ≥ T + t / 2 + 1 - (h + 1) * t := by simpa using hc1
      rw [if_neg (show ¬((h + 1) * t < T + t / 2 + 1 - (h + 1) * t) by omega)]
        at hfin
      exact absurd hfin (by decide)
    · rw [usub_sub L0 1 (by omega) (by omega)] at hfin ⊢
      have echain2 : uadd (uadd (uadd (L0 - 1) h) 1) 1 = L0 + h + 1 := by
        unfold uadd U32M
        omega
      rw [echain2] at hfin ⊢
      have e_S1 : umul (L0 + h + 1) t = (L0 + h + 1) * t := umul_mul _ _ (by omega)
      rw [e_S1] at hfin ⊢
      have e_up : uadd (L0 - 1) 1 = L0 := by
        rw [uadd_eq (L0 - 1) 1 (by omega)]
        omega
      rw [e_up] at hfin ⊢
      by_cases hc2 : (L0 + h + 1) * t < T + t / 2 + 1 - (h + 1) * t
      · rw [if_pos hc2] at hfin ⊢
        omega
      · rw [if_neg hc2] at hfin ⊢
        have hm : L0 - 1 + h + 2 = L0 + h + 1 := by omega
        rw [hm]
        omega
  · rw [if_neg hc1] at hfin ⊢
    have echain3 : uadd (uadd (uadd L0 h) 1) 1 = L0 + h + 2 := by
      unfold uadd U32M
      omega
    rw [echain3] at hfin ⊢
    have e_S2 : umul (L0 + h + 2) t = (L0 + h + 2) * t := umul_mul _ _ (by omega)
    rw [e_S2] at hfin ⊢
    by_cases hc2 : (L0 + h + 2) * t < T + t / 2 + 1 - (h + 1) * t
    · rw [if_pos hc2] at hfin ⊢
      rw [e_L01]
      omega
    · rw [if_neg hc2] at hfin ⊢
      omega

/-- A wrapped (underflowed) low count in `[2^32-259, 2^32-2]` survives the
correction pass far above the 8-bit range. -/
lemma scllpp_correct_wrap_big (h L0 t T : Nat) (hh : h ≤ 255)
    (hlo : 4294967037 ≤ L0) (hhi2 : L0 ≤ 4294967294) :
    256 ≤ I3C_CtrlScllppCorrect h L0 t T := by
  simp only [I3C_CtrlScllppCorrect]
  have e1 : usub L0 1 = L0 - 1 := usub_sub _ _ (by omega) (by omega)
  rw [e1]
  have e2 : uadd (L0 - 1) 1 = L0 := by
    rw [uadd_eq (L0 - 1) 1 (by omega)]
    omega
  have e3 : uadd L0 1 = L0 + 1 := uadd_eq _ _ (by omega)
  split
  · split
    · rw [e2]
      omega
    · omega
  · split
    · rw [e3]
      omega
    · omega

/-- The fully wrapped low count `2^32 - 1` (underflow by exactly one) is
never rescued by the correction pass when the high phase realizes at least
the ideal period minus half a cycle. -/
lemma scllpp_correct_wrap_top (h t T : Nat) (ht : 0 < t) (hh : h ≤ 255)
    (htle : t ≤ 66667) (hTM : 100 * T < 4294967296)
    (hP2 : (h + 1) * t ≤ T + t / 2)
    (hlow : T + t / 2 < (h + 1) * t + t) :
    256 ≤ I3C_CtrlScllppCorrect h 4294967295 t T := by
  have htP2 : t ≤ (h + 1) * t := Nat.le_mul_of_pos_left t (by omega)
  have e_h1 : uadd h 1 = h + 1 := uadd_eq _ _ (by omega)
  have e_P2 : umul (h + 1) t = (h + 1) * t := umul_mul _ _ (by omega)
  have hRHS : uadd (uadd (usub T ((h + 1) * t)) (t / 2)) 1 =
      T + t / 2 + 1 - (h + 1) * t := by
    by_cases hc : (h + 1) * t ≤ T
    · rw [usub_sub _ _ hc (by omega)]
      rw [uadd_eq (T - (h + 1) * t) (t / 2) (by omega)]
      rw [uadd_eq (T - (h + 1) * t + t / 2) 1 (by omega)]
      omega
    · push_neg at hc
      rw [usub_wrap _ _ hc (by omega) (by omega)]
      unfold uadd U32M
      omega
  simp only [I3C_CtrlScllppCorrect]
  rw [e_h1, e_P2, hRHS]
  have e0 : uadd 4294967295 1 = 0 := by decide
  rw [e0]
  have ez : umul 0 t = 0 := by
    unfold umul U32M
    simp
  rw [ez]
  rw [if_neg (show ¬(0 ≥ T + t / 2 + 1 - (h + 1) * t) by omega)]
  have echain : uadd (uadd (uadd 4294967295 h) 1) 1 = h + 1 := by
    unfold uadd U32M
    omega
  rw [echain, e_P2]
  rw [if_neg (show ¬((h + 1) * t < T + t / 2 + 1 - (h + 1) * t) by omega)]
  omega

/-- Accuracy of the clamped (branch A) low-count formula: with any high
count `hv` and `Q` the round-half-up count of the full period, the low
count `Q - hv - 2` realizes the period to within half a cycle, and the
correction pass never disturbs it; underflowed low counts fail the 8-bit
bound. -/
lemma branchA_accuracy (hv Q t T : Nat)
    (ht : 0 < t) (htle : t ≤ 66667) (hTM : 100 * T < 4294967296)
    (hhv : hv ≤ 255)
    (hQ1 : Q * t ≤ T + t / 2) (hQ2 : T + t / 2 < Q * t + t)
    (hfin : I3C_CtrlScllppCorrect hv (usub (usub Q (uadd hv 1)) 1) t T ≤ 255) :
    (I3C_CtrlScllppCorrect hv (usub (usub Q (uadd hv 1)) 1) t T + hv + 2) * t <
        T + t ∧
      T < (I3C_CtrlScllppCorrect hv (usub (usub Q (uadd hv 1)) 1) t T + hv + 2) *
          t + t := by
  have hQM : Q ≤ Q * t := Nat.le_mul_of_pos_right _ ht
  have hQtM : Q * t < 4294967296 := by omega
  have e1 : uadd hv 1 = hv + 1 := uadd_eq _ _ (by omega)
  rw [e1] at hfin ⊢
  by_cases hcase : hv + 2 ≤ Q
  · rw [usub_sub Q (hv + 1) (by omega) (by omega)] at hfin ⊢
    rw [usub_sub (Q - (hv + 1)) 1 (by omega) (by omega)] at hfin ⊢
    have hP2 : (hv + 1) * t ≤ T + t / 2 := by
      have := Nat.mul_le_mul_right t (show hv + 1 ≤ Q by omega)
      omega
    refine scllpp_correct_plain hv (Q - (hv + 1) - 1) t T ht htle hTM hhv hP2
      ?_ ?_ hfin
    · rw [(by omega : Q - (hv + 1) - 1 + hv + 2 = Q)]
      omega
    · rw [(by omega : Q - (hv + 1) - 1 + hv + 2 = Q)]
      omega
  · by_cases htop : Q = hv + 1
    · rw [htop] at hfin hQ1 hQ2
      rw [(by unfold usub U32M; omega : usub (hv + 1) (hv + 1) = 0)] at hfin
      rw [(by decide : usub 0 1 = 4294967295)] at hfin
      have hw := scllpp_correct_wrap_top hv t T ht hhv htle hTM (by omega)
        (by omega)
      omega
    · rw [usub_wrap Q (hv + 1) (by omega) (by omega) (by omega)] at hfin
      rw [usub_sub (Q + 4294967296 - (hv + 1)) 1 (by omega) (by omega)] at hfin
      have hw := scllpp_correct_wrap_big hv (Q + 4294967296 - (hv + 1) - 1) t T
        hhv (by omega) (by omega)
      omega

/-- Branch-A accuracy stated on the raw clamped low-count term as it
occurs in `I3C_CtrlHighLowPure`. -/
lemma branchA_raw (hv t T : Nat)
    (ht : 0 < t) (htle : t ≤ 66667) (hTM : 100 * T < 4294967296)
    (hhv : hv ≤ 255)
    (hfin : I3C_CtrlScllppCorrect hv
      (usub (usub (DIV_ROUND_CLOSEST T t) (uadd hv 1)) 1) t T ≤ 255) :
    (I3C_CtrlScllppCorrect hv
        (usub (usub (DIV_ROUND_CLOSEST T t) (uadd hv 1)) 1) t T + hv + 2) * t <
        T + t ∧
      T < (I3C_CtrlScllppCorrect hv
          (usub (usub (DIV_ROUND_CLOSEST T t) (uadd hv 1)) 1) t T + hv + 2) *
          t + t := by
  have hQd : DIV_ROUND_CLOSEST T t = (T + t / 2) / t := by
    unfold DIV_ROUND_CLOSEST
    rw [uadd_eq T (t / 2) (by omega)]
  rw [hQd] at hfin ⊢
  have hd1 : (T + t / 2) / t * t ≤ T + t / 2 := Nat.div_mul_le_self _ _
  have hd2 : T + t / 2 < (T + t / 2) / t * t + t := lt_div_mul_add _ _ ht
  set Q := (T + t / 2) / t with hQg
  clear_value Q
  exact branchA_accuracy hv Q t T ht htle hTM hhv hd1 hd2 hfin

/-- Frequency accuracy of the pure-bus SCL computation: when the duty
products cannot overflow (`100*T < 2^32`) and the resulting high and
corrected low counts fit 8 bits, the realized period
`(low + high + 2) * t` is within one reference clock period of `T`. -/
lemma pure_scl_accuracy (dc t T : Nat)
    (hdc : dc ≤ 50) (ht : 0 < t) (htle : t ≤ 66667)
    (hTM : 101 * T < 4294967296)
    (hh255 : (I3C_CtrlHighLowPure dc t T).1 ≤ 255)
    (hfin : I3C_CtrlScllppCorrect (I3C_CtrlHighLowPure dc t T).1
      (I3C_CtrlHighLowPure dc t T).2 t T ≤ 255) :
    (I3C_CtrlScllppCorrect (I3C_CtrlHighLowPure dc t T).1
        (I3C_CtrlHighLowPure dc t T).2 t T + (I3C_CtrlHighLowPure dc t T).1 +
        2) * t < T + t ∧
      T < (I3C_CtrlScllppCorrect (I3C_CtrlHighLowPure dc t T).1
          (I3C_CtrlHighLowPure dc t T).2 t T + (I3C_CtrlHighLowPure dc t T).1 +
          2) * t + t := by
  simp only [I3C_CtrlHighLowPure, TI3CH_MIN] at hh255 hfin ⊢
  have hTdc : T * dc ≤ T * 50 := Nat.mul_le_mul_left T hdc
  have hA : umul T dc = T * dc := umul_mul _ _ (by omega)
  have h100 : usub 100 dc = 100 - dc := usub_sub _ _ (by omega) (by omega)
  have hTdc' : T * (100 - dc) ≤ T * 100 := Nat.mul_le_mul_left T (by omega)
  have hA' : umul T (100 - dc) = T * (100 - dc) := umul_mul _ _ (by omega)
  rw [hA] at hh255 hfin ⊢
  rw [h100, hA'] at hh255 hfin ⊢
  have hq1e : DIV_ROUND_CLOSEST (T * dc) t = (T * dc + t / 2) / t := by
    unfold DIV_ROUND_CLOSEST
    rw [uadd_eq (T * dc) (t / 2) (by omega)]
  rw [hq1e] at hh255 hfin ⊢
  have hq1e' : DIV_ROUND_CLOSEST (T * (100 - dc)) t =
      (T * (100 - dc) + t / 2) / t := by
    unfold DIV_ROUND_CLOSEST
    rw [uadd_eq (T * (100 - dc)) (t / 2) (by omega)]
  rw [hq1e'] at hh255 hfin ⊢
  have hd1a : (T * dc + t / 2) / t * t ≤ T * dc + t / 2 := Nat.div_mul_le_self _ _
  have hd1b : T * dc + t / 2 < (T * dc + t / 2) / t * t + t := lt_div_mul_add _ _ ht
  have hd1a' : (T * (100 - dc) + t / 2) / t * t ≤ T * (100 - dc) + t / 2 :=
    Nat.div_mul_le_self _ _
  have hd1b' : T * (100 - dc) + t / 2 < (T * (100 - dc) + t / 2) / t * t + t :=
    lt_div_mul_add _ _ ht
  have hq1le : (T * dc + t / 2) / t ≤ (T * (100 - dc) + t / 2) / t :=
    Nat.div_le_div_right (by
      have : T * dc ≤ T * (100 - dc) := Nat.mul_le_mul_left T (by omega)
      omega)
  have hq1ub : (T * dc + t / 2) / t ≤ T * dc + t / 2 := Nat.div_le_self _ _
  have hq1ub' : (T * (100 - dc) + t / 2) / t ≤ T * (100 - dc) + t / 2 :=
    Nat.div_le_self _ _
  set q1 := (T * dc + t / 2) / t with hq1g
  clear_value q1
  set q1' := (T * (100 - dc) + t / 2) / t with hq1g'
  clear_value q1'
  clear hq1g hq1g' hq1e hq1e'
  have hq2e : DIV_ROUND_CLOSEST q1 100 = (q1 + 50) / 100 := by
    unfold DIV_ROUND_CLOSEST
    rw [(by decide : (100 : Nat) / 2 = 50)]
    rw [uadd_eq q1 50 (by omega)]
  rw [hq2e] at hh255 hfin ⊢
  have hq2e' : DIV_ROUND_CLOSEST q1' 100 = (q1' + 50) / 100 := by
    unfold DIV_ROUND_CLOSEST
    rw [(by decide : (100 : Nat) / 2 = 50)]
    rw [uadd_eq q1' 50 (by omega)]
  rw [hq2e'] at hh255 hfin ⊢
  have hd2a : 100 * ((q1 + 50) / 100) ≤ q1 + 50 := by omega
  have hd2b : q1 + 50 < 100 * ((q1 + 50) / 100) + 100 := by omega
  have hd2a' : 100 * ((q1' + 50) / 100) ≤ q1' + 50 := by omega
  have hd2b' : q1' + 50 < 100 * ((q1' + 50) / 100) + 100 := by omega
  have hq2le : (q1 + 50) / 100 ≤ (q1' + 50) / 100 := by omega
  set q2 := (q1 + 50) / 100 with hq2g
  clear_value q2
  set q2' := (q1' + 50) / 100 with hq2g'
  clear_value q2'
  clear hq2g hq2g' hq2e hq2e'
  by_cases hq20 : q2 = 0
  · subst hq20
    rw [(by decide : usub 0 1 = 4294967295)] at hh255 hfin ⊢
    rw [(by decide : uadd 4294967295 1 = 0)] at hh255 hfin ⊢
    have hm0 : umul 0 t = 0 := by
      unfold umul U32M
      simp
    rw [hm0] at hh255 hfin ⊢
    rw [if_pos (show (0 : Nat) < 3200 by omega)] at hh255 hfin ⊢
    dsimp only at hh255 hfin ⊢
    exact branchA_raw _ t T ht htle (by omega) hh255 hfin
  · by_cases hbr : umul (uadd (usub q2 1) 1) t < 3200
    · rw [if_pos hbr] at hh255 hfin ⊢
      dsimp only at hh255 hfin ⊢
      exact branchA_raw _ t T ht htle (by omega) hh255 hfin
    · rw [if_neg hbr] at hh255 hfin ⊢
      dsimp only at hh255 hfin ⊢
      rw [if_neg hbr] at hh255 hfin ⊢
      have hq2M : q2 ≤ 4294967295 := by omega
      rw [usub_sub q2 1 (by omega) (by omega)] at hh255 hbr hfin ⊢
      have e_a : uadd (q2 - 1) 1 = q2 := by
        rw [uadd_eq (q2 - 1) 1 (by omega)]
        omega
      rw [e_a] at hbr
      have hl1 : 100 * (q2 * t) ≤ (q1 + 50) * t := by
        calc 100 * (q2 * t) = 100 * q2 * t := by ring
          _ ≤ (q1 + 50) * t := Nat.mul_le_mul_right t hd2a
      have hl2 : q1 * t ≤ (100 * q2 + 49) * t :=
        Nat.mul_le_mul_right t (by omega)
      have hl3 : (q1 + 50) * t = q1 * t + 50 * t := by ring
      have hl4 : (100 * q2 + 49) * t = 100 * (q2 * t) + 49 * t := by ring
      have hq150 : 50 ≤ q1 := by omega
      have hl5 : 50 * t ≤ q1 * t := Nat.mul_le_mul_right t hq150
      have hq2tM : q2 * t < 4294967296 := by omega
      have hmulq2 : umul q2 t = q2 * t := umul_mul _ _ hq2tM
      rw [hmulq2] at hbr
      push_neg at hbr
      have hl1' : 100 * (q2' * t) ≤ (q1' + 50) * t := by
        calc 100 * (q2' * t) = 100 * q2' * t := by ring
          _ ≤ (q1' + 50) * t := Nat.mul_le_mul_right t hd2a'
      have hl2' : q1' * t ≤ (100 * q2' + 49) * t :=
        Nat.mul_le_mul_right t (by omega)
      have hl3' : (q1' + 50) * t = q1' * t + 50 * t := by ring
      have hl4' : (100 * q2' + 49) * t = 100 * (q2' * t) + 49 * t := by ring
      have hAsum : T * dc + T * (100 - dc) = 100 * T := by
        have hsu : dc + (100 - dc) = 100 := by omega
        calc T * dc + T * (100 - dc) = T * (dc + (100 - dc)) := by ring
          _ = 100 * T := by rw [hsu]; ring
      rw [usub_sub q2' 1 (by omega) (by omega)] at hfin ⊢
      have htq2 : t ≤ q2 * t := Nat.le_mul_of_pos_left t (by omega)
      have hq2le_t : q2 * t ≤ q2' * t := Nat.mul_le_mul_right t hq2le
      refine scllpp_correct_plain (q2 - 1) (q2' - 1) t T ht htle (by omega)
        (by omega) ?_ ?_ ?_ hfin
      · rw [(by omega : q2 - 1 + 1 = q2)]
        omega
      · rw [(by omega : q2' - 1 + (q2 - 1) + 2 = q2' + q2)]
        have hsum : (q2' + q2) * t = q2' * t + q2 * t := by ring
        omega
      · rw [(by omega : q2' - 1 + (q2 - 1) + 2 = q2' + q2)]
        have hsum : (q2' + q2) * t = q2' * t + q2 * t := by ring
        omega

/-- On the pure bus the high count of the SCL block is the first component
of the pure high/low computation. -/
lemma sclCompute_pure_sclhi3c (dc t T Tod : Nat) :
    (I3C_CtrlSclCompute dc I3C_BUS_TYPE.I3C_PURE_I3C_BUS t T Tod).sclhi3c =
      (I3C_CtrlHighLowPure dc t T).1 := rfl

/-- On the pure bus the low count of the SCL block is the corrected second
component of the pure high/low computation. -/
lemma sclCompute_pure_scllpp (dc t T Tod : Nat) :
    (I3C_CtrlSclCompute dc I3C_BUS_TYPE.I3C_PURE_I3C_BUS t T Tod).scllpp =
      I3C_CtrlScllppCorrect (I3C_CtrlHighLowPure dc t T).1
        (I3C_CtrlHighLowPure dc t T).2 t T := rfl

/-- An 8-bit bus-idle count forces the reference period below 66668
(otherwise the `uint32_t` subtraction of 2 wraps far above 255). -/
lemma t_le_of_oneus (t : Nat) (ht : t ≠ 0) (htM : t < 4294967296)
    (h : usub (DIV_ROUND_CLOSEST 100000 t) 2 ≤ 255) : t ≤ 66667 := by
  have e : DIV_ROUND_CLOSEST 100000 t = (100000 + t / 2) / t := by
    unfold DIV_ROUND_CLOSEST
    rw [uadd_eq 100000 (t / 2) (by omega)]
  rw [e] at h
  have hd1 : (100000 + t / 2) / t * t ≤ 100000 + t / 2 := Nat.div_mul_le_self _ _
  have hd2 : 100000 + t / 2 < (100000 + t / 2) / t * t + t :=
    lt_div_mul_add _ _ (by omega)
  have hub : (100000 + t / 2) / t ≤ 100000 + t / 2 := Nat.div_le_self _ _
  set q := (100000 + t / 2) / t with hqg
  clear_value q
  rcases Nat.lt_or_ge q 2 with hq | hq
  · unfold usub U32M at h
    omega
  · have h2t : 2 * t ≤ q * t := Nat.mul_le_mul_right t hq
    omega

/-- C4 (amended).  For every PureI3C controller input on which the
computation returns SUCCESS, provided the derived ideal period satisfies
`101 * period(i3cFreq) < 2^32` (so the 32-bit duty-cycle products and
their rounding adds cannot wrap; i3cFreq of roughly 2.4 kHz and above),
the realized push-pull period `(SCLPPLowDuration + SCLI3CHighDuration + 2)
* period(clockSrcFreq)` deviates from the ideal period `period(i3cFreq)`
by strictly less than one reference-clock period. -/
theorem ctrl_pure_freq_accuracy (f i3c i2c dc : Nat)
    (cfg : LL_I3C_CtrlBusConfTypeDef)
    (hov : 101 * ti3cclk_of i3c < 4294967296)
    (h : I3C_CtrlTimingComputation f i3c i2c dc
      I3C_BUS_TYPE.I3C_PURE_I3C_BUS = some cfg) :
    (cfg.SCLPPLowDuration + cfg.SCLI3CHighDuration + 2) * ti3cclk_of f <
        ti3cclk_of i3c + ti3cclk_of f ∧
      ti3cclk_of i3c <
        (cfg.SCLPPLowDuration + cfg.SCLI3CHighDuration + 2) * ti3cclk_of f +
          ti3cclk_of f := by
  obtain ⟨hdc, ht0, hpp, hhi, -, -, -, honeus, hcfg⟩ := ctrl_some_elim h
  rw [sclCompute_oneus] at honeus
  have htM : ti3cclk_of f < 4294967296 := ti3cclk_of_lt f
  have htle : ti3cclk_of f ≤ 66667 := t_le_of_oneus _ ht0 htM honeus
  have e1 : cfg.SCLPPLowDuration =
      (I3C_CtrlSclCompute dc I3C_BUS_TYPE.I3C_PURE_I3C_BUS (ti3cclk_of f)
        (ti3cclk_of i3c) (ti3cclk_of i2c)).scllpp := by
    rw [hcfg, packCtrlConfig_SCLPPLowDuration]
    omega
  have e2 : cfg.SCLI3CHighDuration =
      (I3C_CtrlSclCompute dc I3C_BUS_TYPE.I3C_PURE_I3C_BUS (ti3cclk_of f)
        (ti3cclk_of i3c) (ti3cclk_of i2c)).sclhi3c := by
    rw [hcfg, packCtrlConfig_SCLI3CHighDuration]
    omega
  rw [e1, e2, sclCompute_pure_scllpp, sclCompute_pure_sclhi3c]
  rw [sclCompute_pure_scllpp] at hpp
  rw [sclCompute_pure_sclhi3c] at hhi
  exact pure_scl_accuracy dc (ti3cclk_of f) (ti3cclk_of i3c) hdc
    (by omega) htle hov hhi hpp

/-- Witness for `ctrl_pure_freq_accuracy` at the spec's scenario-1 input:
realized period `4 * 2083 = 8332` against ideal `8000`, deviation
`332 < 2083`. -/
theorem ctrl_pure_freq_accuracy_witness :
    (101 * ti3cclk_of 12500000 < 4294967296 ∧
      I3C_CtrlTimingComputation 48000000 12500000 0 50
        I3C_BUS_TYPE.I3C_PURE_I3C_BUS = some ⟨1, 1, 18, 0, 10, 46, 0⟩) ∧
    ((1 + 1 + 2) * ti3cclk_of 48000000 <
        ti3cclk_of 12500000 + ti3cclk_of 48000000 ∧
      ti3cclk_of 12500000 <
        (1 + 1 + 2) * ti3cclk_of 48000000 + ti3cclk_of 48000000) :=
  ⟨⟨by decide, by decide⟩,
    ctrl_pure_freq_accuracy 48000000 12500000 0 50 ⟨1, 1, 18, 0, 10, 46, 0⟩
      (by decide) (by decide)⟩
